import Mathlib

/-!
Shallow embedding of the conversion job engine of `rw2toexr.py`
(`ConversionThread`): path resolution, raw-file discovery, the batch loop
with its progress events and cooperative cancellation, the per-file
converter `rw2_to_exr`, and the `run` wrapper that turns an outcome into a
single terminal completion event.

External collaborators (the rawpy decoder and the OpenEXR encoder) are
abstracted as function parameters returning `Except`; the filesystem is
abstracted as the directory listing seen by `glob` and an `isDir`
predicate.  Paths are POSIX strings without trailing separators, mirroring
`pathlib`/`os.path` string behaviour on the operations the code uses.
-/

namespace RW2

/-! ### Path helpers (pathlib / os.path string operations used by the code) -/

/-- The final path component: everything after the last `/`
(`pathlib.PurePath.name` for paths without a trailing separator). -/
def fileNameStr (s : String) : String :=
  String.mk ((s.data.reverse.takeWhile (fun c => c ≠ '/')).reverse)

/-- `os.path.dirname`: the prefix up to the last `/`, with trailing slashes
stripped unless the head consists only of slashes (so `dirname "/a" = "/"`,
`dirname "a/b" = "a"`, `dirname "a" = ""`). -/
def dirnameStr (s : String) : String :=
  let head := (s.data.reverse.dropWhile (fun c => c ≠ '/')).reverse
  if head.all (fun c => c = '/') then String.mk head
  else String.mk ((head.reverse.dropWhile (fun c => c = '/')).reverse)

/-- `str(Path(d) / n)` for a normalized directory string `d` and a bare
component `n`: a separator is inserted unless `d` already ends in one
(the root `"/"`). -/
def joinPath (d n : String) : String :=
  if d = "" then n
  else if d.data.getLast? = some '/' then d ++ n
  else d ++ "/" ++ n

/-- Index of the last occurrence of `c`, if any. -/
def lastIdxOf (c : Char) : List Char → Option Nat
  | [] => none
  | a :: rest =>
    match lastIdxOf c rest with
    | some i => some (i + 1)
    | none => if a = c then some 0 else none

/-- `pathlib.PurePath.suffix` of a bare file name: the part from the last
dot, provided that dot is neither the first nor the last character. -/
def pySuffixStr (name : String) : String :=
  match lastIdxOf '.' name.data with
  | some i =>
    if 0 < i ∧ i + 1 < name.data.length then String.mk (name.data.drop i) else ""
  | none => ""

/-- `pathlib.PurePath.stem` of a bare file name: the name minus its suffix. -/
def pyStemStr (name : String) : String :=
  String.mk (name.data.take (name.data.length - (pySuffixStr name).data.length))

/-- `str(Path(p).with_suffix(".exr"))`: the raw head of `p` up to and
including the last `/`, followed by the stem of the final component plus
`.exr` (`with_suffix` appends when the old suffix is empty, which is the
same as `stem + new_suffix` since then `stem = name`). -/
def withSuffixExr (p : String) : String :=
  let head := (p.data.reverse.dropWhile (fun c => c ≠ '/')).reverse
  let nm := fileNameStr p
  String.mk head ++ (pyStemStr nm ++ ".exr")

/-! ### Events (the Qt signals `progress_updated` and `conversion_finished`) -/

/-- An event delivered from the worker to the subscriber. -/
inductive Event where
  | progress (percent : Nat) (message : String)
  | completion (succeeded : Bool) (message : String)
deriving DecidableEq, Repr

/-! ### Raw-file discovery (line 58)

`list(input_dir.glob('*.RW2')) + list(input_dir.glob('*.rw2'))`.
`pathlib` globbing on POSIX is case-sensitive, and the pattern `*.RW2`
matches exactly the names ending in the literal four characters `.RW2`
(file names contain no `/`).  `listing` is the scandir order of the
directory's entries. -/

/-- The files discovered by the two case-sensitive glob calls, in order. -/
def discoverRW2 (listing : List String) : List String :=
  listing.filter (fun f => ".RW2".data.isSuffixOf f.data) ++
    listing.filter (fun f => ".rw2".data.isSuffixOf f.data)

/-- The spec's discovery predicate, written from the spec's words for
comparison with `discoverRW2`: the extension matches `.RW2`
case-insensitively, i.e. in any casing. -/
def specCaseInsensitiveRW2 (f : String) : Bool :=
  ".rw2".data.isSuffixOf (f.data.map Char.toLower)

/-! ### Sample normalization (line 85): `rgb.astype(np.float32) / 65535.0` -/

/-- One integer sample rescaled by the fixed factor 1/65535 (exact
arithmetic model of the linear rescale). -/
def normalizeSample (v : Nat) : ℚ :=
  (v : ℚ) / 65535

/-- The whole buffer, sample-wise. -/
def normalizeBuffer (b : List Nat) : List ℚ :=
  b.map normalizeSample

/-! ### The per-file converter `rw2_to_exr` (lines 75-99)

`decode` abstracts `rawpy.imread` + `postprocess` (returns width, height
and the integer sample buffer, or fails); `encode` abstracts
`OpenEXR.OutputFile` + `writePixels` (the channel split of the normalized
buffer is value-preserving and is left to the encoder abstraction).
`os.makedirs(os.path.dirname(output_path), exist_ok=True)` raises
`FileNotFoundError` when handed the empty string, i.e. exactly when the
output path has no directory component; other makedirs failures are
outside the model.  Any exception in the body is wrapped as
`Failed to convert <input name>: <reason>`. -/

/-- `str(FileNotFoundError(2, "No such file or directory", ''))`. -/
def makedirsEmptyMsg : String :=
  "[Errno 2] No such file or directory: ''"

/-- The per-file conversion. -/
def rw2_to_exr (decode : String → Except String (Nat × Nat × List Nat))
    (encode : String → Nat → Nat → List ℚ → Except String Unit)
    (input_path output_path : String) : Except String Unit :=
  let body : Except String Unit :=
    match decode input_path with
    | Except.error e => Except.error e
    | Except.ok (w, h, samples) =>
      let rgb_float := normalizeBuffer samples
      if dirnameStr output_path = "" then Except.error makedirsEmptyMsg
      else encode output_path w h rgb_float
  match body with
  | Except.ok _ => Except.ok ()
  | Except.error e =>
    Except.error ("Failed to convert " ++ fileNameStr input_path ++ ": " ++ e)

/-! ### The job runner -/

/-- What one job execution did: progress events emitted (in order),
directories created by `mkdir(parents=True, exist_ok=True)`, input/output
pairs actually handed to the per-file converter (in order), and the
outcome that `run` sees (normal return or propagated exception message). -/
structure JobTrace where
  progress : List (Nat × String)
  made : List String
  attempts : List (String × String)
  outcome : Except String Unit
deriving Repr

/-- Exponent of the leading binary digit of a positive rational `q` (the
unique `e` with `2^e ≤ q < 2^(e+1)`), located by stepping down from
`2^hi` with `p = 2^e` carried along.  The fuel covers every exponent from
63 down past the binary64 subnormal threshold; exhausting it reports an
exponent below that threshold, which the caller clamps.  (The percent
computation only ever rounds values in `(0, 101)`, far inside this
range.) -/
def leadExp : Nat → Int → ℚ → ℚ → Int
  | 0, _, _, _ => -2000
  | fuel + 1, e, p, q => if p ≤ q then e else leadExp fuel (e - 1) (p / 2) q

/-- Round a nonnegative rational to the nearest integer, ties to even. -/
def roundHalfEvenQ (x : ℚ) : Int :=
  let f := ⌊x⌋
  let r := x - (f : ℚ)
  if r < 1 / 2 then f
  else if (1 / 2 : ℚ) < r then f + 1
  else if f % 2 = 0 then f else f + 1

/-- The exact value of rounding a nonnegative rational below `2^64` to an
IEEE-754 binary64 float: round to nearest, ties to even, on a 53-bit
significand, with gradual underflow below the subnormal threshold
(mantissa exponent clamped at `-1074`); overflow cannot arise at these
magnitudes.  This is the rounding CPython applies to `int / int` true
division and to float multiplication.  (Checked against CPython on every
`(idx, total)` with `total ≤ 127` and on larger spot values.) -/
def roundDouble (q : ℚ) : ℚ :=
  if q ≤ 0 then 0
  else
    let e1 := leadExp 1200 63 ((2 : ℚ) ^ (63 : Int)) q
    let e : Int := max (e1 - 52) (-1074)
    (roundHalfEvenQ (q / (2 : ℚ) ^ e) : ℚ) * (2 : ℚ) ^ e

/-- `int((i+1)/total_files*100)` (line 70) for `idx = i+1`, computed the
way CPython computes it: binary64 true division, binary64 multiplication
by the exact constant 100, truncation toward zero (= floor, the value
being nonnegative).  Not the exact floor `idx*100/total`: e.g.
`progressPct 29 100 = 28` while the exact floor is 29. -/
def progressPct (idx total : Nat) : Nat :=
  (⌊roundDouble (roundDouble ((idx : ℚ) / (total : ℚ)) * 100)⌋).toNat

/-- `f"Converting {i+1}/{total_files}: {input_file.name}"` for `idx = i+1`. -/
def progressMsg (idx total : Nat) (name : String) : String :=
  "Converting " ++ toString idx ++ "/" ++ toString total ++ ": " ++ name

/-- The input path of the unit for file `f` in `input_dir`. -/
def unitInput (input_dir f : String) : String :=
  joinPath input_dir f

/-- `output_dir / (input_file.stem + '.exr')`. -/
def unitOutput (output_dir f : String) : String :=
  joinPath output_dir (pyStemStr f ++ ".exr")

/-- The `for i, input_file in enumerate(rw2_files)` loop of
`batch_convert` (lines 64-73): at the top of each iteration the
cancellation flag is read (`cancel i` is the value observed at iteration
`i`); if set, the loop breaks; otherwise a progress event is emitted and
the converter is called, whose exception aborts the loop. -/
def batchLoop (convert : String → String → Except String Unit)
    (cancel : Nat → Bool) (input_dir output_dir : String) (total : Nat) :
    Nat → List String →
      List (Nat × String) × List (String × String) × Except String Unit
  | _, [] => ([], [], Except.ok ())
  | i, f :: rest =>
    if cancel i then ([], [], Except.ok ())
    else
      let inp := unitInput input_dir f
      let outp := unitOutput output_dir f
      match convert inp outp with
      | Except.ok _ =>
        let r := batchLoop convert cancel input_dir output_dir total (i + 1) rest
        ((progressPct (i + 1) total, progressMsg (i + 1) total f) :: r.1,
          (inp, outp) :: r.2.1, r.2.2)
      | Except.error e =>
        ([(progressPct (i + 1) total, progressMsg (i + 1) total f)],
          [(inp, outp)], Except.error e)

/-- Line 55: `Path(self.output_path) if self.output_path else input_dir`
(the empty string is falsy, so it means "no output given"). -/
def outDir (input_path output_path : String) : String :=
  if output_path = "" then input_path else output_path

/-- `batch_convert` (lines 53-73): resolve the output directory (input
directory when none given), create it, glob, fail with
`No RW2 files found in <input_dir>` when nothing matched, else run the
loop. -/
def batch_convert (convert : String → String → Except String Unit)
    (cancel : Nat → Bool) (input_path output_path : String)
    (listing : List String) : JobTrace :=
  let input_dir := input_path
  let output_dir := outDir input_path output_path
  let rw2_files := discoverRW2 listing
  if rw2_files.isEmpty then
    { progress := [], made := [output_dir], attempts := [],
      outcome := Except.error ("No RW2 files found in " ++ input_dir) }
  else
    let r := batchLoop convert cancel input_dir output_dir rw2_files.length 0
      rw2_files
    { progress := r.1, made := [output_dir], attempts := r.2.1,
      outcome := r.2.2 }

/-- The output-path resolution of `convert_single` (lines 36-43). -/
def resolveSingleOutput (isDir : String → Bool)
    (input_path output_path : String) : String :=
  if output_path = "" then withSuffixExr input_path
  else if isDir output_path then
    joinPath output_path (pyStemStr (fileNameStr input_path) ++ ".exr")
  else output_path

/-- `convert_single` (lines 32-51): resolve the output, emit the starting
progress event, convert; on success emit the 100% event, on failure emit
the error event and re-raise. -/
def convert_single (convert : String → String → Except String Unit)
    (isDir : String → Bool) (input_path output_path : String) : JobTrace :=
  let output_file := resolveSingleOutput isDir input_path output_path
  let ev0 : Nat × String := (0, "Converting " ++ fileNameStr input_path ++ "...")
  match convert input_path output_file with
  | Except.ok _ =>
    { progress := [ev0, (100, "Successfully converted to " ++ output_file)],
      made := [], attempts := [(input_path, output_file)],
      outcome := Except.ok () }
  | Except.error e =>
    { progress := [ev0, (0, "Error: " ++ e)],
      made := [], attempts := [(input_path, output_file)],
      outcome := Except.error e }

/-- `run` (lines 22-30): execute the selected mode under `try`, then emit
exactly one terminal `conversion_finished` signal — success when the body
returned, failure with `Error: <message>` when it raised. -/
def run (convert : String → String → Except String Unit) (cancel : Nat → Bool)
    (is_batch : Bool) (input_path output_path : String)
    (listing : List String) (isDir : String → Bool) : List Event :=
  let t := if is_batch then
      batch_convert convert cancel input_path output_path listing
    else convert_single convert isDir input_path output_path
  t.progress.map (fun p => Event.progress p.1 p.2) ++
    [match t.outcome with
     | Except.ok _ => Event.completion true "Conversion completed successfully!"
     | Except.error e => Event.completion false ("Error: " ++ e)]

/-! ### Derived notions used in the statements -/

/-- Whether an event is a progress event. -/
def Event.isProgress : Event → Bool
  | Event.progress _ _ => true
  | Event.completion _ _ => false

/-- The progress event `batch_convert` emits for 0-indexed unit `j`. -/
def expectedEv (files : List String) (total j : Nat) : Nat × String :=
  (progressPct (j + 1) total, progressMsg (j + 1) total (files.getD j ""))

/-- The input/output pair `batch_convert` hands the converter for
0-indexed unit `j`. -/
def expectedUnit (input_dir output_dir : String) (files : List String)
    (j : Nat) : String × String :=
  (unitInput input_dir (files.getD j ""),
    unitOutput output_dir (files.getD j ""))

/-- The percent sequence of an error-free, uncancelled batch over `n`
files. -/
def pctList (n : Nat) : List Nat :=
  (List.range n).map fun j => progressPct (j + 1) n

/-- A file name with no path separator in it (true of every directory
entry). -/
def slashFree (s : String) : Bool :=
  s.data.all (fun c => c ≠ '/')

/-- A directory listing of `n` raw files, used to exercise concrete
batches. -/
def rawListing (n : Nat) : List String :=
  (List.range n).map fun i => "f" ++ toString i ++ ".RW2"

/-- The percents carried by the progress events of an event stream. -/
def progressPercents (evs : List Event) : List Nat :=
  evs.filterMap fun ev =>
    match ev with
    | Event.progress p _ => some p
    | Event.completion _ _ => none

/-! ### List and string helper lemmas -/

theorem takeWhile_append_all {p : Char → Bool} (as bs : List Char)
    (h : ∀ a ∈ as, p a = true) :
    (as ++ bs).takeWhile p = as ++ bs.takeWhile p := by
  induction as with
  | nil => simp
  | cons a as ih =>
    have ha : p a = true := h a (List.mem_cons_self a as)
    simp only [List.cons_append, List.takeWhile_cons, ha, if_true]
    rw [ih (fun x hx => h x (List.mem_cons_of_mem a hx))]

theorem takeWhile_all {p : Char → Bool} (l : List Char)
    (h : ∀ a ∈ l, p a = true) : l.takeWhile p = l := by
  have := takeWhile_append_all l [] h
  simpa using this

theorem fileNameStr_joinPath (d f : String) (hf : slashFree f = true) :
    fileNameStr (joinPath d f) = f := by
  have hall : ∀ c ∈ f.data.reverse, (c ≠ '/' : Bool) = true := by
    intro c hc
    have := List.all_eq_true.mp hf c (List.mem_reverse.mp hc)
    simpa using this
  have hslash : (('/' : Char) ≠ '/' : Bool) = false := by decide
  unfold joinPath
  by_cases hd : d = ""
  · simp only [hd, if_true]
    unfold fileNameStr
    rw [takeWhile_all _ hall, List.reverse_reverse]
  · simp only [hd, if_false]
    by_cases hlast : d.data.getLast? = some '/'
    · simp only [hlast, if_true]
      unfold fileNameStr
      have hdata : (d ++ f).data = d.data ++ f.data := String.data_append d f
      rw [hdata, List.reverse_append]
      obtain ⟨t, ht⟩ : ∃ t, d.data.reverse = '/' :: t := by
        have hh : d.data.reverse.head? = some '/' := by
          rw [List.head?_reverse]; exact hlast
        cases hrev : d.data.reverse with
        | nil => rw [hrev] at hh; simp at hh
        | cons x t =>
          rw [hrev] at hh
          simp only [List.head?_cons, Option.some.injEq] at hh
          exact ⟨t, by rw [hh]⟩
      rw [ht, takeWhile_append_all _ _ hall]
      simp only [List.takeWhile_cons, hslash, Bool.false_eq_true, if_false,
        List.append_nil, List.reverse_reverse]
    · simp only [hlast, if_false]
      unfold fileNameStr
      have hdata : (d ++ "/" ++ f).data = (d.data ++ ['/']) ++ f.data := by
        rw [String.data_append, String.data_append]
      rw [hdata, List.reverse_append, List.reverse_append]
      simp only [List.reverse_cons, List.reverse_nil, List.nil_append,
        List.singleton_append]
      rw [takeWhile_append_all _ _ hall]
      simp only [List.takeWhile_cons, hslash, Bool.false_eq_true, if_false,
        List.append_nil, List.reverse_reverse]

/-! ### Characterization of the batch loop -/

theorem batchLoop_split (convert : String → String → Except String Unit)
    (cancel : Nat → Bool) (input_dir output_dir : String) (total : Nat)
    (m : Nat) :
    ∀ (i : Nat) (fs : List String), m ≤ fs.length →
      (∀ j, j < m → cancel (i + j) = false ∧
          convert (unitInput input_dir (fs.getD j ""))
            (unitOutput output_dir (fs.getD j "")) = Except.ok ()) →
      batchLoop convert cancel input_dir output_dir total i fs =
        (((List.range m).map fun j =>
            (progressPct (i + j + 1) total,
              progressMsg (i + j + 1) total (fs.getD j ""))) ++
            (batchLoop convert cancel input_dir output_dir total (i + m)
              (fs.drop m)).1,
          ((List.range m).map fun j =>
            (unitInput input_dir (fs.getD j ""),
              unitOutput output_dir (fs.getD j ""))) ++
            (batchLoop convert cancel input_dir output_dir total (i + m)
              (fs.drop m)).2.1,
          (batchLoop convert cancel input_dir output_dir total (i + m)
            (fs.drop m)).2.2) := by
  induction m with
  | zero =>
    intro i fs _ _
    simp
  | succ m ih =>
    intro i fs hlen h
    match fs with
    | [] => exact absurd hlen (by simp)
    | f :: rest =>
      have h0 := h 0 (Nat.succ_pos m)
      have hc0 : cancel i = false := by simpa using h0.1
      have hv0 : convert (unitInput input_dir f) (unitOutput output_dir f) =
          Except.ok () := by simpa using h0.2
      have hlen' : m ≤ rest.length := by simpa using hlen
      have harg : ∀ j, j < m → cancel (i + 1 + j) = false ∧
          convert (unitInput input_dir (rest.getD j ""))
            (unitOutput output_dir (rest.getD j "")) = Except.ok () := by
        intro j hj
        have hj1 := h (j + 1) (by omega)
        refine ⟨?_, by simpa using hj1.2⟩
        have hidx : i + (j + 1) = i + 1 + j := by omega
        have := hj1.1
        rwa [hidx] at this
      have hrec := ih (i + 1) rest hlen' harg
      show batchLoop convert cancel input_dir output_dir total i (f :: rest) = _
      rw [batchLoop, hc0]
      simp only [Bool.false_eq_true, if_false, hv0]
      rw [hrec]
      have hidx : i + (m + 1) = i + 1 + m := by omega
      rw [hidx, List.drop_succ_cons, List.range_succ_eq_map]
      simp only [List.map_cons, List.map_map, List.cons_append,
        Nat.add_zero, List.getD_cons_zero]
      refine congrArg₂ Prod.mk ?_ (congrArg₂ Prod.mk ?_ rfl)
      · refine congrArg₂ List.cons rfl (congrArg (· ++ _) ?_)
        refine List.map_congr_left ?_
        intro j _
        simp only [Function.comp_apply, List.getD_cons_succ]
        have hidx2 : i + (j + 1) + 1 = i + 1 + j + 1 := by omega
        rw [hidx2]
      · refine congrArg₂ List.cons rfl (congrArg (· ++ _) ?_)
        refine List.map_congr_left ?_
        intro j _
        simp only [Function.comp_apply, List.getD_cons_succ]

/-! ### Batch-job characterizations -/

theorem batch_convert_empty (convert : String → String → Except String Unit)
    (cancel : Nat → Bool) (input_path output_path : String)
    (listing : List String) (h : discoverRW2 listing = []) :
    batch_convert convert cancel input_path output_path listing =
      { progress := [], made := [outDir input_path output_path],
        attempts := [],
        outcome := Except.error ("No RW2 files found in " ++ input_path) } := by
  unfold batch_convert
  rw [h]
  simp

theorem batchLoop_nil (convert : String → String → Except String Unit)
    (cancel : Nat → Bool) (input_dir output_dir : String) (total i : Nat) :
    batchLoop convert cancel input_dir output_dir total i [] =
      ([], [], Except.ok ()) := by
  rw [batchLoop]

theorem batch_convert_all_ok (convert : String → String → Except String Unit)
    (cancel : Nat → Bool) (input_path output_path : String)
    (listing : List String) (files : List String) (n : Nat)
    (hf : discoverRW2 listing = files) (hn : files.length = n) (hpos : 0 < n)
    (h : ∀ j, j < n → cancel j = false ∧
        convert (unitInput input_path (files.getD j ""))
          (unitOutput (outDir input_path output_path) (files.getD j "")) =
          Except.ok ()) :
    batch_convert convert cancel input_path output_path listing =
      { progress := (List.range n).map (expectedEv files n),
        made := [outDir input_path output_path],
        attempts := (List.range n).map
          (expectedUnit input_path (outDir input_path output_path) files),
        outcome := Except.ok () } := by
  have hne : files.isEmpty = false := by
    cases files with
    | nil => rw [← hn] at hpos; simp at hpos
    | cons a l => rfl
  have hsplit := batchLoop_split convert cancel input_path
    (outDir input_path output_path) n n 0 files (by omega) ?hyp
  case hyp =>
    intro j hj
    have := h j (by omega)
    simpa using this
  have hdrop : files.drop n = [] := by
    rw [← hn]; exact List.drop_length files
  rw [hdrop, batchLoop_nil] at hsplit
  simp only [Nat.zero_add, List.append_nil] at hsplit
  unfold batch_convert
  rw [hf]
  simp only [hne, Bool.false_eq_true, if_false, hn, hsplit]
  rfl

theorem batch_convert_fail (convert : String → String → Except String Unit)
    (cancel : Nat → Bool) (input_path output_path : String)
    (listing : List String) (files : List String) (n k : Nat) (e : String)
    (hf : discoverRW2 listing = files) (hn : files.length = n)
    (hk1 : 1 ≤ k) (hkn : k ≤ n)
    (hok : ∀ j, j < k - 1 → cancel j = false ∧
        convert (unitInput input_path (files.getD j ""))
          (unitOutput (outDir input_path output_path) (files.getD j "")) =
          Except.ok ())
    (hck : cancel (k - 1) = false)
    (hfail : convert (unitInput input_path (files.getD (k - 1) ""))
        (unitOutput (outDir input_path output_path) (files.getD (k - 1) "")) =
        Except.error e) :
    batch_convert convert cancel input_path output_path listing =
      { progress := (List.range k).map (expectedEv files n),
        made := [outDir input_path output_path],
        attempts := (List.range k).map
          (expectedUnit input_path (outDir input_path output_path) files),
        outcome := Except.error e } := by
  have hne : files.isEmpty = false := by
    cases files with
    | nil => simp at hn; omega
    | cons a l => rfl
  have hsplit := batchLoop_split convert cancel input_path
    (outDir input_path output_path) n (k - 1) 0 files (by omega) ?hyp
  case hyp =>
    intro j hj
    have := hok j hj
    simpa using this
  have hlt : k - 1 < files.length := by omega
  have hdrop : files.drop (k - 1) =
      files.getD (k - 1) "" :: files.drop (k - 1 + 1) := by
    rw [List.drop_eq_getElem_cons hlt, List.getD_eq_getElem files "" hlt]
  rw [hdrop, batchLoop] at hsplit
  simp only [Nat.zero_add, hck, Bool.false_eq_true, if_false, hfail] at hsplit
  unfold batch_convert
  rw [hf]
  simp only [hne, Bool.false_eq_true, if_false, hn, hsplit]
  have hk : k - 1 + 1 = k := by omega
  rw [← hk, List.range_succ, List.map_append, List.map_append,
    List.map_singleton, List.map_singleton]
  rfl

theorem batch_convert_cancelled (convert : String → String → Except String Unit)
    (cancel : Nat → Bool) (input_path output_path : String)
    (listing : List String) (files : List String) (n k : Nat)
    (hf : discoverRW2 listing = files) (hn : files.length = n)
    (hk1 : 1 ≤ k) (hkn : k ≤ n)
    (hok : ∀ j, j < k - 1 → cancel j = false ∧
        convert (unitInput input_path (files.getD j ""))
          (unitOutput (outDir input_path output_path) (files.getD j "")) =
          Except.ok ())
    (hck : cancel (k - 1) = true) :
    batch_convert convert cancel input_path output_path listing =
      { progress := (List.range (k - 1)).map (expectedEv files n),
        made := [outDir input_path output_path],
        attempts := (List.range (k - 1)).map
          (expectedUnit input_path (outDir input_path output_path) files),
        outcome := Except.ok () } := by
  have hne : files.isEmpty = false := by
    cases files with
    | nil => simp at hn; omega
    | cons a l => rfl
  have hsplit := batchLoop_split convert cancel input_path
    (outDir input_path output_path) n (k - 1) 0 files (by omega) ?hyp
  case hyp =>
    intro j hj
    have := hok j hj
    simpa using this
  have hlt : k - 1 < files.length := by omega
  have hdrop : files.drop (k - 1) =
      files.getD (k - 1) "" :: files.drop (k - 1 + 1) := by
    rw [List.drop_eq_getElem_cons hlt, List.getD_eq_getElem files "" hlt]
  rw [hdrop, batchLoop] at hsplit
  simp only [Nat.zero_add, hck, if_true, List.append_nil] at hsplit
  unfold batch_convert
  rw [hf]
  simp only [hne, Bool.false_eq_true, if_false, hn, hsplit]
  rfl

/-! ### The percent sequence -/

set_option maxRecDepth 16000 in
set_option maxHeartbeats 1000000 in
theorem progressPct_self (n : Nat) (hn : 0 < n) : progressPct n n = 100 := by
  have hne : ((n : ℚ)) ≠ 0 := Nat.cast_ne_zero.mpr (by omega)
  unfold progressPct
  rw [div_self hne]
  with_unfolding_all decide

theorem pctList_last (n : Nat) (hn : 0 < n) :
    (pctList n).getLast? = some 100 := by
  obtain ⟨m, rfl⟩ : ∃ m, n = m + 1 := ⟨n - 1, by omega⟩
  unfold pctList
  rw [List.range_succ, List.map_append, List.map_singleton,
    List.getLast?_concat]
  rw [progressPct_self (m + 1) (Nat.succ_pos m)]

/-! ### Error shape of the per-file converter -/

theorem rw2_to_exr_error_shape
    (decode : String → Except String (Nat × Nat × List Nat))
    (encode : String → Nat → Nat → List ℚ → Except String Unit)
    (input_path output_path e : String)
    (h : rw2_to_exr decode encode input_path output_path = Except.error e) :
    ∃ r, e = "Failed to convert " ++ fileNameStr input_path ++ ": " ++ r := by
  unfold rw2_to_exr at h
  cases hdec : decode input_path with
  | error e1 =>
    rw [hdec] at h
    simp only [Except.error.injEq] at h
    exact ⟨e1, h.symm⟩
  | ok v =>
    obtain ⟨w, ht, samples⟩ := v
    rw [hdec] at h
    by_cases hdir : dirnameStr output_path = ""
    · simp only [hdir, if_pos, Except.error.injEq] at h
      exact ⟨makedirsEmptyMsg, h.symm⟩
    · simp only [hdir, if_neg, if_false] at h
      cases henc : encode output_path w ht (normalizeBuffer samples) with
      | error e2 =>
        rw [henc] at h
        simp only [Except.error.injEq] at h
        exact ⟨e2, h.symm⟩
      | ok u =>
        rw [henc] at h
        simp at h

/-! ### Unfolding `run` at each mode -/

theorem run_batch (convert : String → String → Except String Unit)
    (cancel : Nat → Bool) (input_path output_path : String)
    (listing : List String) (isDir : String → Bool) :
    run convert cancel true input_path output_path listing isDir =
      (batch_convert convert cancel input_path output_path listing).progress.map
          (fun p => Event.progress p.1 p.2) ++
        [match (batch_convert convert cancel input_path output_path
            listing).outcome with
         | Except.ok _ =>
           Event.completion true "Conversion completed successfully!"
         | Except.error e => Event.completion false ("Error: " ++ e)] := rfl

theorem run_single (convert : String → String → Except String Unit)
    (cancel : Nat → Bool) (input_path output_path : String)
    (listing : List String) (isDir : String → Bool) :
    run convert cancel false input_path output_path listing isDir =
      (convert_single convert isDir input_path output_path).progress.map
          (fun p => Event.progress p.1 p.2) ++
        [match (convert_single convert isDir input_path output_path).outcome with
         | Except.ok _ =>
           Event.completion true "Conversion completed successfully!"
         | Except.error e => Event.completion false ("Error: " ++ e)] := rfl

theorem progressPercents_shape (l : List (Nat × String)) (b : Bool)
    (msg : String) :
    progressPercents ((l.map fun p => Event.progress p.1 p.2) ++
      [Event.completion b msg]) = l.map Prod.fst := by
  induction l with
  | nil => rfl
  | cons a t ih =>
    show a.1 :: progressPercents ((t.map fun p => Event.progress p.1 p.2) ++
      [Event.completion b msg]) = a.1 :: t.map Prod.fst
    rw [ih]

/-! ## The claims -/

set_option maxRecDepth 16000 in
set_option maxHeartbeats 2000000 in
/-- **C1, counterexample.** In the batch over 100 raw files, with no
cancellation and every conversion succeeding, the emitted progress
percents are not strictly increasing: units 28 and 29 both report 28,
because the program computes `int(29/100*100) = 28` in binary64 — which
also differs from the exact `floor(29/100*100) = 29` the claim
states for that event. -/
theorem C1_counterexample :
    ¬ List.Chain' (fun a b => a < b)
      (((batch_convert (fun _ _ => Except.ok ()) (fun _ => false) "in" ""
          (rawListing 100)).progress).map Prod.fst) ∧
    progressPct 29 100 = 28 ∧ 29 * 100 / 100 = 29 := by
  refine ⟨?_, by with_unfolding_all decide, by decide⟩
  have hp : ((batch_convert (fun _ _ => Except.ok ()) (fun _ => false) "in" ""
      (rawListing 100)).progress).map Prod.fst = pctList 100 := by
    with_unfolding_all decide
  rw [hp]
  intro hchain
  rw [List.chain'_iff_get] at hchain
  have h27 := hchain 27 (by with_unfolding_all decide)
  revert h27
  with_unfolding_all decide

/-- **C1 (amended).** For every batch of `n` files processed with no
cancellation and no per-file error, exactly `n` progress events are
emitted; the event emitted before converting unit `i` of `n` (`i` counted
from 0) has the percent the program computes — `int((i+1)/n*100)`
evaluated in IEEE binary64 (`progressPct`), which can fall below the
exact `floor((i+1)/n*100)` and can repeat across consecutive units — and
message `"Converting i+1/n: <name>"`; the percent reaches 100 on the
last event; and the progress events are followed by exactly one
successful CompletionEvent. -/
theorem C1_batch_progress (convert : String → String → Except String Unit)
    (cancel : Nat → Bool) (input_path output_path : String)
    (listing files : List String) (n : Nat) (isDir : String → Bool)
    (hf : discoverRW2 listing = files) (hn : files.length = n) (hpos : 0 < n)
    (hcancel : ∀ i, cancel i = false)
    (hconv : ∀ i o, convert i o = Except.ok ()) :
    run convert cancel true input_path output_path listing isDir =
      ((List.range n).map fun j =>
        Event.progress (progressPct (j + 1) n)
          (progressMsg (j + 1) n (files.getD j ""))) ++
        [Event.completion true "Conversion completed successfully!"] ∧
    progressPercents
      (run convert cancel true input_path output_path listing isDir) =
      pctList n ∧
    (pctList n).getLast? = some 100 := by
  have hchar := batch_convert_all_ok convert cancel input_path output_path
    listing files n hf hn hpos (fun j _ => ⟨hcancel j, hconv _ _⟩)
  have hrun : run convert cancel true input_path output_path listing isDir =
      ((List.range n).map fun j =>
        Event.progress (progressPct (j + 1) n)
          (progressMsg (j + 1) n (files.getD j ""))) ++
        [Event.completion true "Conversion completed successfully!"] := by
    rw [run_batch, hchar]
    rw [List.map_map]
    rfl
  refine ⟨hrun, ?_, pctList_last n hpos⟩
  rw [hrun]
  rw [show ((List.range n).map fun j =>
      Event.progress (progressPct (j + 1) n)
        (progressMsg (j + 1) n (files.getD j ""))) =
      ((List.range n).map (expectedEv files n)).map
        (fun p => Event.progress p.1 p.2) from by rw [List.map_map]; rfl]
  rw [progressPercents_shape, List.map_map]
  rfl

/-- Witness for C1 (amended) on a concrete two-file batch. -/
theorem C1_batch_progress_witness :
    run (fun _ _ => Except.ok ()) (fun _ => false) true "in" "out"
      ["a.RW2", "b.rw2"] (fun _ => false) =
      ((List.range 2).map fun j =>
        Event.progress (progressPct (j + 1) 2)
          (progressMsg (j + 1) 2 ((["a.RW2", "b.rw2"] : List String).getD j ""))) ++
        [Event.completion true "Conversion completed successfully!"] ∧
    progressPercents (run (fun _ _ => Except.ok ()) (fun _ => false) true "in"
      "out" ["a.RW2", "b.rw2"] (fun _ => false)) = pctList 2 ∧
    (pctList 2).getLast? = some 100 :=
  C1_batch_progress (fun _ _ => Except.ok ()) (fun _ => false) "in" "out"
    ["a.RW2", "b.rw2"] ["a.RW2", "b.rw2"] 2 (fun _ => false) (by decide)
    (by decide) (by decide) (fun _ => rfl) (fun _ _ => rfl)

/-- **C2, counterexample.** The file `photo.Rw2` matches the raw extension
case-insensitively, yet the discovery of a directory containing exactly it
finds nothing — mixed casings of the extension are not discovered,
refuting the claim that the discovered set is the case-insensitive
matches. -/
theorem C2_counterexample :
    specCaseInsensitiveRW2 "photo.Rw2" = true ∧
      "photo.Rw2" ∉ discoverRW2 ["photo.Rw2"] := by decide

/-- **C2 (amended).** The set of files discovered in the input directory
is exactly the set of files (non-recursive) whose name ends in the two
exact casings the code globs for — `.RW2` or `.rw2` — not arbitrary mixed
casings of the extension. -/
theorem C2_discovery (listing : List String) (f : String) :
    f ∈ discoverRW2 listing ↔
      f ∈ listing ∧ (".RW2".data.isSuffixOf f.data = true ∨
        ".rw2".data.isSuffixOf f.data = true) := by
  unfold discoverRW2
  simp only [List.mem_append, List.mem_filter]
  tauto

/-- **C3.** For every job (single or batch, succeeding, failing, or
cancelled — any converter behaviour, any cancellation pattern), the event
stream delivered by `run` is some progress events followed by exactly one
CompletionEvent: it comes after every ProgressEvent and is delivered
exactly once, even when a conversion step raises. -/
theorem C3_exactly_one_completion
    (convert : String → String → Except String Unit) (cancel : Nat → Bool)
    (is_batch : Bool) (input_path output_path : String)
    (listing : List String) (isDir : String → Bool) :
    ∃ ps b msg,
      run convert cancel is_batch input_path output_path listing isDir =
        ps ++ [Event.completion b msg] ∧
      ∀ ev ∈ ps, ev.isProgress = true := by
  have hsh : ∀ t : JobTrace,
      ∃ ps b msg, (t.progress.map (fun p => Event.progress p.1 p.2) ++
        [match t.outcome with
         | Except.ok _ =>
           Event.completion true "Conversion completed successfully!"
         | Except.error e => Event.completion false ("Error: " ++ e)]) =
        ps ++ [Event.completion b msg] ∧ ∀ ev ∈ ps, ev.isProgress = true := by
    intro t
    have hprog : ∀ ev ∈ t.progress.map (fun p => Event.progress p.1 p.2),
        ev.isProgress = true := by
      intro ev hev
      obtain ⟨p, _, rfl⟩ := List.mem_map.mp hev
      rfl
    cases ho : t.outcome with
    | ok u =>
      exact ⟨_, true, "Conversion completed successfully!", rfl, hprog⟩
    | error e =>
      exact ⟨_, false, "Error: " ++ e, rfl, hprog⟩
  cases is_batch with
  | true => rw [run_batch]; exact hsh _
  | false => rw [run_single]; exact hsh _

/-- **C4.** For every batch job in which unit `k` is the first unit whose
conversion fails (units `1..k-1` succeeded, the flag stayed clear up to
unit `k`), exactly `k` progress events are emitted, the last one
describing the attempt on unit `k`; no further units are attempted (the
converter is handed exactly the first `k` units); and the terminal
CompletionEvent reports failure with a message naming unit `k`'s file. -/
theorem C4_fail_fast
    (decode : String → Except String (Nat × Nat × List Nat))
    (encode : String → Nat → Nat → List ℚ → Except String Unit)
    (cancel : Nat → Bool) (input_path output_path : String)
    (listing files : List String) (n k : Nat) (e : String)
    (isDir : String → Bool)
    (hf : discoverRW2 listing = files) (hn : files.length = n)
    (hk1 : 1 ≤ k) (hkn : k ≤ n)
    (hslash : slashFree (files.getD (k - 1) "") = true)
    (hcancel : ∀ i, i < k → cancel i = false)
    (hok : ∀ j, j < k - 1 →
        rw2_to_exr decode encode (unitInput input_path (files.getD j ""))
          (unitOutput (outDir input_path output_path) (files.getD j "")) =
          Except.ok ())
    (hfail : rw2_to_exr decode encode
        (unitInput input_path (files.getD (k - 1) ""))
        (unitOutput (outDir input_path output_path) (files.getD (k - 1) "")) =
        Except.error e) :
    run (rw2_to_exr decode encode) cancel true input_path output_path listing
      isDir =
      ((List.range k).map fun j =>
        Event.progress (progressPct (j + 1) n)
          (progressMsg (j + 1) n (files.getD j ""))) ++
        [Event.completion false ("Error: " ++ e)] ∧
    (batch_convert (rw2_to_exr decode encode) cancel input_path output_path
      listing).attempts =
      (List.range k).map
        (expectedUnit input_path (outDir input_path output_path) files) ∧
    ∃ r, e = "Failed to convert " ++ files.getD (k - 1) "" ++ ": " ++ r := by
  have hchar := batch_convert_fail (rw2_to_exr decode encode) cancel input_path
    output_path listing files n k e hf hn hk1 hkn
    (fun j hj => ⟨hcancel j (by omega), hok j hj⟩)
    (hcancel (k - 1) (by omega)) hfail
  refine ⟨?_, ?_, ?_⟩
  · rw [run_batch, hchar, List.map_map]
    rfl
  · rw [hchar]
  · obtain ⟨r, hr⟩ := rw2_to_exr_error_shape decode encode
      (unitInput input_path (files.getD (k - 1) ""))
      (unitOutput (outDir input_path output_path) (files.getD (k - 1) "")) e
      hfail
    refine ⟨r, ?_⟩
    rw [hr]
    rw [show fileNameStr (unitInput input_path (files.getD (k - 1) "")) =
        files.getD (k - 1) "" from fileNameStr_joinPath _ _ hslash]

/-- Witness for C4 on a concrete two-file batch whose second decode
fails. -/
theorem C4_fail_fast_witness :
    rw2_to_exr
        (fun s => if s = "in/b.RW2" then Except.error "boom"
          else Except.ok (1, 1, [0]))
        (fun _ _ _ _ => Except.ok ())
        (unitInput "in" ((["a.RW2", "b.RW2"] : List String).getD 1 ""))
        (unitOutput (outDir "in" "")
          ((["a.RW2", "b.RW2"] : List String).getD 1 "")) =
      Except.error "Failed to convert b.RW2: boom" ∧
    run (rw2_to_exr
        (fun s => if s = "in/b.RW2" then Except.error "boom"
          else Except.ok (1, 1, [0]))
        (fun _ _ _ _ => Except.ok ()))
      (fun _ => false) true "in" "" ["a.RW2", "b.RW2"] (fun _ => false) =
      ((List.range 2).map fun j =>
        Event.progress (progressPct (j + 1) 2)
          (progressMsg (j + 1) 2
            ((["a.RW2", "b.RW2"] : List String).getD j ""))) ++
        [Event.completion false
          ("Error: " ++ "Failed to convert b.RW2: boom")] := by
  refine ⟨rfl, ?_⟩
  exact (C4_fail_fast
    (fun s => if s = "in/b.RW2" then Except.error "boom"
      else Except.ok (1, 1, [0]))
    (fun _ _ _ _ => Except.ok ()) (fun _ => false) "in" ""
    ["a.RW2", "b.RW2"] ["a.RW2", "b.RW2"] 2 2
    "Failed to convert b.RW2: boom" (fun _ => false) (by decide) (by decide)
    (by decide) (by decide) (by decide) (fun i _ => rfl)
    (fun j hj => by
      have hj0 : j = 0 := by omega
      subst hj0
      rfl)
    rfl).1

/-- **C5.** For every batch job in which cancellation is observed at the
top of iteration `k` (the flag was clear before) and units `1..k-1`
succeeded, exactly `k-1` progress events are emitted, units `k..n` are not
converted (the converter is handed exactly the first `k-1` units), and the
terminal CompletionEvent reports success — cancellation is not an
error. -/
theorem C5_cancel_success
    (convert : String → String → Except String Unit) (cancel : Nat → Bool)
    (input_path output_path : String) (listing files : List String)
    (n k : Nat) (isDir : String → Bool)
    (hf : discoverRW2 listing = files) (hn : files.length = n)
    (hk1 : 1 ≤ k) (hkn : k ≤ n)
    (hcb : ∀ i, i < k - 1 → cancel i = false)
    (hck : cancel (k - 1) = true)
    (hok : ∀ j, j < k - 1 →
        convert (unitInput input_path (files.getD j ""))
          (unitOutput (outDir input_path output_path) (files.getD j "")) =
          Except.ok ()) :
    run convert cancel true input_path output_path listing isDir =
      ((List.range (k - 1)).map fun j =>
        Event.progress (progressPct (j + 1) n)
          (progressMsg (j + 1) n (files.getD j ""))) ++
        [Event.completion true "Conversion completed successfully!"] ∧
    (batch_convert convert cancel input_path output_path listing).attempts =
      (List.range (k - 1)).map
        (expectedUnit input_path (outDir input_path output_path) files) := by
  have hchar := batch_convert_cancelled convert cancel input_path output_path
    listing files n k hf hn hk1 hkn (fun j hj => ⟨hcb j hj, hok j hj⟩) hck
  constructor
  · rw [run_batch, hchar, List.map_map]
    rfl
  · rw [hchar]

/-- Witness for C5: a two-file batch cancelled before its second unit. -/
theorem C5_cancel_success_witness :
    run (fun _ _ => Except.ok ()) (fun i => decide (1 ≤ i)) true "in" ""
      ["a.RW2", "b.RW2"] (fun _ => false) =
      ((List.range 1).map fun j =>
        Event.progress (progressPct (j + 1) 2)
          (progressMsg (j + 1) 2
            ((["a.RW2", "b.RW2"] : List String).getD j ""))) ++
        [Event.completion true "Conversion completed successfully!"] ∧
    (batch_convert (fun _ _ => Except.ok ()) (fun i => decide (1 ≤ i)) "in" ""
      ["a.RW2", "b.RW2"]).attempts =
      (List.range 1).map
        (expectedUnit "in" (outDir "in" "") ["a.RW2", "b.RW2"]) :=
  C5_cancel_success (fun _ _ => Except.ok ()) (fun i => decide (1 ≤ i)) "in" ""
    ["a.RW2", "b.RW2"] ["a.RW2", "b.RW2"] 2 2 (fun _ => false) (by decide)
    (by decide) (by decide) (by decide)
    (fun i hi => by
      have hi0 : i = 0 := by omega
      subst hi0
      rfl)
    rfl (fun j hj => rfl)

/-- **C6.** For every batch job whose input directory contains no raw
files, the job emits zero progress events and terminates with the
no-input-files failure (`ValueError("No RW2 files found in <dir>")`) as
its terminal event. -/
theorem C6_no_input_files
    (convert : String → String → Except String Unit) (cancel : Nat → Bool)
    (input_path output_path : String) (listing : List String)
    (isDir : String → Bool) (h : discoverRW2 listing = []) :
    run convert cancel true input_path output_path listing isDir =
      [Event.completion false
        ("Error: " ++ ("No RW2 files found in " ++ input_path))] := by
  rw [run_batch,
    batch_convert_empty convert cancel input_path output_path listing h]
  rfl

/-- Witness for C6: a directory with a single non-raw file. -/
theorem C6_no_input_files_witness :
    discoverRW2 ["x.txt"] = [] ∧
    run (fun _ _ => Except.ok ()) (fun _ => false) true "photos" ""
      ["x.txt"] (fun _ => false) =
      [Event.completion false
        ("Error: " ++ ("No RW2 files found in " ++ "photos"))] :=
  ⟨by decide,
    C6_no_input_files (fun _ _ => Except.ok ()) (fun _ => false) "photos" ""
      ["x.txt"] (fun _ => false) (by decide)⟩

/-- **C7.** Single-mode output resolution: when no output is given, the
output is the input path with its extension replaced by `.exr`, in the
input's directory; when the given output names an existing directory, it
is that directory joined with the input's base name plus `.exr`; and when
the given output names a file path (existing or not), it is that path
verbatim — never renamed, even when it already ends in `.exr`. -/
theorem C7_resolve_output (isDir : String → Bool)
    (input_path output_path : String) :
    resolveSingleOutput isDir input_path "" = withSuffixExr input_path ∧
    (output_path ≠ "" → isDir output_path = true →
      resolveSingleOutput isDir input_path output_path =
        joinPath output_path (pyStemStr (fileNameStr input_path) ++ ".exr")) ∧
    (output_path ≠ "" → isDir output_path = false →
      resolveSingleOutput isDir input_path output_path = output_path) := by
  refine ⟨rfl, ?_, ?_⟩
  · intro hne hdir
    simp [resolveSingleOutput, hne, hdir]
  · intro hne hdir
    simp [resolveSingleOutput, hne, hdir]

/-- Witness for C7: an explicit output path that already ends in `.exr`
is used verbatim. -/
theorem C7_resolve_output_witness :
    resolveSingleOutput (fun s => decide (s = "outdir")) "d/a.RW2" "b.exr" =
      "b.exr" :=
  (C7_resolve_output (fun s => decide (s = "outdir")) "d/a.RW2" "b.exr").2.2
    (by decide) (by decide)

/-- **C8.** The converter maps every integer sample to a float by dividing
by 65535 — a fixed linear rescale, no tone curve — so every sample in
`0..65535` lands in `[0, 1]` (exact-arithmetic model of the float32
computation; rounding to float32 is monotone and fixes 0 and 1, so the
bounds carry over). -/
theorem C8_normalize (samples : List Nat)
    (h : ∀ v ∈ samples, v ≤ 65535) :
    normalizeBuffer samples = samples.map (fun (v : Nat) => (v : ℚ) / 65535) ∧
    ∀ x ∈ normalizeBuffer samples, 0 ≤ x ∧ x ≤ 1 := by
  refine ⟨rfl, ?_⟩
  intro x hx
  obtain ⟨v, hv, rfl⟩ := List.mem_map.mp hx
  unfold normalizeSample
  constructor
  · positivity
  · rw [div_le_one (by norm_num)]
    exact_mod_cast h v hv

/-- Witness for C8 on a concrete buffer holding both extremes. -/
theorem C8_normalize_witness :
    (∀ v ∈ ([0, 12345, 65535] : List Nat), v ≤ 65535) ∧
    ∀ x ∈ normalizeBuffer [0, 12345, 65535], 0 ≤ x ∧ x ≤ 1 :=
  ⟨by decide, (C8_normalize [0, 12345, 65535] (by decide)).2⟩

/-- **C9.** In batch mode the output directory is created (with
intermediate parents) before the existence check on raw inputs: on a
directory with no matching raw files the job fails with the no-input-files
error and zero progress events, yet the output directory has been
created — the failing job is not atomic with respect to the
filesystem. -/
theorem C9_mkdir_before_check
    (convert : String → String → Except String Unit) (cancel : Nat → Bool)
    (input_path output_path : String) (listing : List String)
    (h : discoverRW2 listing = []) :
    (batch_convert convert cancel input_path output_path listing).made =
      [outDir input_path output_path] ∧
    (batch_convert convert cancel input_path output_path listing).progress =
      [] ∧
    (batch_convert convert cancel input_path output_path listing).outcome =
      Except.error ("No RW2 files found in " ++ input_path) := by
  rw [batch_convert_empty convert cancel input_path output_path listing h]
  exact ⟨rfl, rfl, rfl⟩

/-- Witness for C9: an empty-of-raws directory with a given (absent)
output directory, which is nevertheless created. -/
theorem C9_mkdir_before_check_witness :
    discoverRW2 ["readme.md"] = [] ∧
    ((batch_convert (fun _ _ => Except.ok ()) (fun _ => false) "in" "newout"
        ["readme.md"]).made = [outDir "in" "newout"] ∧
      (batch_convert (fun _ _ => Except.ok ()) (fun _ => false) "in" "newout"
        ["readme.md"]).progress = [] ∧
      (batch_convert (fun _ _ => Except.ok ()) (fun _ => false) "in" "newout"
        ["readme.md"]).outcome =
        Except.error ("No RW2 files found in " ++ "in")) :=
  ⟨by decide,
    C9_mkdir_before_check (fun _ _ => Except.ok ()) (fun _ => false) "in"
      "newout" ["readme.md"] (by decide)⟩

/-- **C10.** For every conversion whose resolved output path has no
directory component (a bare filename relative to the current directory),
`os.path.dirname` yields the empty string, the directory-creation call on
it raises, and the conversion fails with an error naming the input file —
whatever the decoder and encoder do. -/
theorem C10_bare_output_fails
    (decode : String → Except String (Nat × Nat × List Nat))
    (encode : String → Nat → Nat → List ℚ → Except String Unit)
    (input_path output_path : String) (h : dirnameStr output_path = "") :
    ∃ r, rw2_to_exr decode encode input_path output_path =
      Except.error
        ("Failed to convert " ++ fileNameStr input_path ++ ": " ++ r) := by
  unfold rw2_to_exr
  cases hdec : decode input_path with
  | error e1 => exact ⟨e1, rfl⟩
  | ok v =>
    obtain ⟨w, ht, samples⟩ := v
    refine ⟨makedirsEmptyMsg, ?_⟩
    simp [h]

/-- Witness for C10: a bare output file name fails even with decode and
encode both succeeding. -/
theorem C10_bare_output_fails_witness :
    dirnameStr "out.exr" = "" ∧
    ∃ r, rw2_to_exr (fun _ => Except.ok (1, 1, [0]))
      (fun _ _ _ _ => Except.ok ()) "a.RW2" "out.exr" =
      Except.error ("Failed to convert " ++ fileNameStr "a.RW2" ++ ": " ++ r) :=
  ⟨by decide,
    C10_bare_output_fails (fun _ => Except.ok (1, 1, [0]))
      (fun _ _ _ _ => Except.ok ()) "a.RW2" "out.exr" (by decide)⟩

end RW2
